import Mathlib

/-!
Verification of the ShortsAI production orchestrator.

This file shallowly embeds the data model (`types.ts`), the gateway
normalization layer (`services/geminiService.ts`) and the orchestration
logic of the `App` component against which the specified properties are
settled.  Asynchronous gateway calls are modelled by passing their
resolved outcome (`Except`) explicitly; the React `setState` updates are
modelled as pure whole-state transformations, exactly as the source
expresses them (`setState(prev => ...)`).
-/
/-- Workflow step, from `WorkflowState.step` in `types.ts`. -/
inductive Step
  | NEWS
  | IDEATION
  | SCRIPT
  | REF_IMAGE
  | PRODUCTION
deriving DecidableEq, Repr

/-- News item, from `types.ts` (`NewsItem`). -/
structure NewsItem where
  id : String
  title : String
  snippet : String
  url : String
deriving DecidableEq, Repr

/-- Ideation option, from `types.ts` (`IdeationItem`). -/
structure IdeationItem where
  id : String
  title : String
  description : String
deriving DecidableEq, Repr

/-- Script segment, from `types.ts` (`ScriptSegment`).  Absent/`null`
URL fields are both modelled as `none`. -/
structure ScriptSegment where
  id : String
  timestamp : String
  text : String
  imagePrompt : String
  imageUrl : Option String := none
  videoUrl : Option String := none
  isGenerating : Bool := false
  isVideoGenerating : Bool := false
deriving DecidableEq, Repr

/-- Script package, from `types.ts` (`ScriptPackage`). -/
structure ScriptPackage where
  title : String
  description : String
  tags : List String
  cta : String
  thumbnailPrompt : String
  thumbnailUrl : Option String := none
  audioUrl : Option String := none
  isAudioGenerating : Bool := false
  mainRefPrompt : String
  fullScriptPara : String
  segments : List ScriptSegment
deriving DecidableEq, Repr

/-- Reference image candidate, from `types.ts` (`refImages` entries). -/
structure RefImage where
  id : String
  url : String
deriving DecidableEq, Repr

/-- Whole workflow state, from `types.ts` (`WorkflowState`). -/
structure WorkflowState where
  step : Step
  selectedNews : Option NewsItem := none
  ideationOptions : List IdeationItem := []
  selectedIdea : Option IdeationItem := none
  scriptPackage : Option ScriptPackage := none
  refImages : List RefImage := []
  selectedRefImageUrl : Option String := none
  needsApiKey : Bool := false
deriving DecidableEq, Repr

/-- A `Partial<ScriptSegment>` update object as used by `updateSegment`
in the App component: each field is either absent (keep the old value)
or present (override).  Only the four fields the App ever updates are
representable, exactly the ones appearing in its `updateSegment` calls. -/
structure SegmentUpdates where
  imageUrl : Option (Option String) := none
  videoUrl : Option (Option String) := none
  isGenerating : Option Bool := none
  isVideoGenerating : Option Bool := none
deriving DecidableEq, Repr

/-- JS object spread `{ ...s, ...updates }` for a segment and a partial
update object. -/
def mergeSegment (s : ScriptSegment) (u : SegmentUpdates) : ScriptSegment :=
  { s with
    imageUrl := u.imageUrl.getD s.imageUrl
    videoUrl := u.videoUrl.getD s.videoUrl
    isGenerating := u.isGenerating.getD s.isGenerating
    isVideoGenerating := u.isVideoGenerating.getD s.isVideoGenerating }

/-- The App's `updateSegment(id, updates)` (PromptInput.tsx lines
237-248): maps over the package's segments, merging `updates` into the
segment whose `id` matches and leaving every other segment as-is; a
state without a script package is returned unchanged. -/
def updateSegment (st : WorkflowState) (segId : String) (u : SegmentUpdates) : WorkflowState :=
  match st.scriptPackage with
  | none => st
  | some pkg =>
      { st with
        scriptPackage := some
          { pkg with
            segments := pkg.segments.map fun s =>
              if s.id = segId then mergeSegment s u else s } }

/-- Segments of the current script package (empty when no package). -/
def segmentsOf (st : WorkflowState) : List ScriptSegment :=
  match st.scriptPackage with
  | none => []
  | some pkg => pkg.segments

/-- Audio URL of the current script package. -/
def audioUrlOf (st : WorkflowState) : Option String :=
  match st.scriptPackage with
  | none => none
  | some pkg => pkg.audioUrl

/-- Thumbnail URL of the current script package. -/
def thumbnailUrlOf (st : WorkflowState) : Option String :=
  match st.scriptPackage with
  | none => none
  | some pkg => pkg.thumbnailUrl

/-- Audio-generating flag of the current script package. -/
def isAudioGeneratingOf (st : WorkflowState) : Bool :=
  match st.scriptPackage with
  | none => false
  | some pkg => pkg.isAudioGenerating

/-- The per-segment transformation performed by one `updateSegment`
call. -/
def updFn (segId : String) (u : SegmentUpdates) (s : ScriptSegment) : ScriptSegment :=
  if s.id = segId then mergeSegment s u else s

/-- The App's `selectNews(item)` (PromptInput.tsx lines 117-128): first
publishes `selectedNews`, then — once the ideation call resolves — either
publishes the options and flips the step to IDEATION, or (on failure)
changes nothing further.  The resolved outcome of `generateIdeation` is
passed explicitly. -/
def selectNews (st : WorkflowState) (item : NewsItem)
    (ideas : Except String (List IdeationItem)) : WorkflowState :=
  let st1 := { st with selectedNews := some item }
  match ideas with
  | .ok opts => { st1 with step := Step.IDEATION, ideationOptions := opts }
  | .error _ => st1

/-- State at the moment `regenerateScene` issues the new scene-image
call (PromptInput.tsx lines 250-252): after the guard on
`selectedRefImageUrl` and the `isGenerating: true` update, before the
gateway call resolves. -/
def regenerateSceneStart (st : WorkflowState) (seg : ScriptSegment) : WorkflowState :=
  match st.selectedRefImageUrl with
  | none => st
  | some _ => updateSegment st seg.id { isGenerating := some true }

/-- The App's `regenerateScene(segment)` (PromptInput.tsx lines
250-259) run to completion, with the resolved outcome of
`generateSceneImage` passed explicitly.  On success the new image is
published together with `isGenerating: false` and `videoUrl: null`; on
failure only `isGenerating: false` is applied. -/
def regenerateScene (st : WorkflowState) (seg : ScriptSegment)
    (result : Except String String) : WorkflowState :=
  match st.selectedRefImageUrl with
  | none => st
  | some _ =>
      let st1 := updateSegment st seg.id { isGenerating := some true }
      match result with
      | .ok imageUrl =>
          updateSegment st1 seg.id
            { imageUrl := some (some imageUrl)
              isGenerating := some false
              videoUrl := some none }
      | .error _ => updateSegment st1 seg.id { isGenerating := some false }

/-- Whether `cs` starts with the character list given first. -/
def startsWithChars : List Char → List Char → Bool
  | [], _ => true
  | _ :: _, [] => false
  | c :: cs, d :: ds => c == d && startsWithChars cs ds

/-- Whether the needle occurs as a contiguous run of the haystack. -/
def occursIn (needle : List Char) : List Char → Bool
  | [] => startsWithChars needle []
  | d :: ds => startsWithChars needle (d :: ds) || occursIn needle ds

/-- JS `String.prototype.includes`. -/
def includesStr (hay needle : String) : Bool :=
  occursIn needle.toList hay.toList

/-- Result discriminator for a run of `animateScene`. -/
inductive AnimateOutcome
  | noImage
  | keyMissing
  | videoOk
  | videoFailed
deriving DecidableEq, Repr

/-- The App's `animateScene(segment)` (PromptInput.tsx lines 214-235).
The early `if (!segment.imageUrl) return;` guard is the realization of
the precondition on a successful image: it yields `noImage` and touches
nothing.  `hasKey` is the resolved value of
`window.aistudio.hasSelectedApiKey()` and `video` the resolved outcome
of `generateSceneVideo`. -/
def animateScene (st : WorkflowState) (seg : ScriptSegment) (hasKey : Bool)
    (video : Except String String) : WorkflowState × AnimateOutcome :=
  match seg.imageUrl with
  | none => (st, AnimateOutcome.noImage)
  | some _ =>
      if hasKey = false then ({ st with needsApiKey := true }, AnimateOutcome.keyMissing)
      else
        let st1 := updateSegment st seg.id { isVideoGenerating := some true }
        match video with
        | .ok videoUrl =>
            (updateSegment st1 seg.id
              { videoUrl := some (some videoUrl), isVideoGenerating := some false },
             AnimateOutcome.videoOk)
        | .error msg =>
            let st2 :=
              if includesStr msg "Requested entity was not found"
              then { st1 with needsApiKey := true }
              else st1
            (updateSegment st2 seg.id { isVideoGenerating := some false },
             AnimateOutcome.videoFailed)

/-- Concrete segment with a previously successful image and motion. -/
def segOld : ScriptSegment :=
  { id := "seg-0", timestamp := "00", text := "hello", imagePrompt := "city at dawn",
    imageUrl := some "img-old", videoUrl := some "vid-old" }

/-- Concrete sibling segment. -/
def segSib : ScriptSegment :=
  { id := "seg-1", timestamp := "03", text := "world", imagePrompt := "city at dusk",
    imageUrl := some "img-sib", videoUrl := none }

/-- Concrete segment with no successful image. -/
def segNoImg : ScriptSegment :=
  { id := "seg-9", timestamp := "27", text := "end", imagePrompt := "credits" }

/-- Concrete two-segment package with audio and thumbnail attached. -/
def pkgTwo : ScriptPackage :=
  { title := "T", description := "D", tags := ["ai"], cta := "Sub",
    thumbnailPrompt := "thumb", thumbnailUrl := some "thumb-url",
    audioUrl := some "audio-url", mainRefPrompt := "ref", fullScriptPara := "para",
    segments := [segOld, segSib] }

/-- Concrete Production-stage state with a selected reference. -/
def stProd : WorkflowState :=
  { step := Step.PRODUCTION, scriptPackage := some pkgTwo,
    selectedRefImageUrl := some "ref-url" }

/-- Concrete fresh NEWS-stage state. -/
def stNews : WorkflowState := { step := Step.NEWS }

/-- Concrete news item. -/
def item0 : NewsItem :=
  { id := "news-0", title := "Big chip", snippet := "A new chip", url := "https://x" }

/-- Whether an `Except` outcome is a success. -/
def exceptOk : Except String String → Bool
  | .ok _ => true
  | .error _ => false

/-- An observable call event of the Production scene loop: a segment's
scene-image call being issued, or that call resolving (successfully or
not). -/
inductive SceneEvent
  | started (segId : String)
  | resolved (segId : String) (ok : Bool)
deriving DecidableEq, Repr

/-- The state update published when segment `segId`'s scene-image call
resolves (PromptInput.tsx lines 205-210): on success the new image URL
with `isGenerating: false`, on failure only `isGenerating: false`. -/
def resolveUpdate (r : Except String String) (segId : String)
    (st : WorkflowState) : WorkflowState :=
  match r with
  | .ok url =>
      updateSegment st segId { imageUrl := some (some url), isGenerating := some false }
  | .error _ => updateSegment st segId { isGenerating := some false }

/-- The `for` loop over scenes in `generateProductionAssets`
(PromptInput.tsx lines 201-211), instrumented with its trace of call
events: each iteration marks its segment generating, issues the call
(resolved outcome `o i` for loop index `i`), publishes the resolution,
and only then recurses on the remaining segments. -/
def sceneLoop (o : Nat → Except String String) :
    List ScriptSegment → Nat → WorkflowState → WorkflowState × List SceneEvent
  | [], _, st => (st, [])
  | seg :: rest, i, st =>
      let next := sceneLoop o rest (i + 1)
        (resolveUpdate (o i) seg.id (updateSegment st seg.id { isGenerating := some true }))
      (next.1,
        SceneEvent.started seg.id :: SceneEvent.resolved seg.id (exceptOk (o i)) :: next.2)

/-- Net effect of one loop iteration on its own segment. -/
def stepResolve (r : Except String String) (s : ScriptSegment) : ScriptSegment :=
  match r with
  | .ok url => { s with imageUrl := some url, isGenerating := false }
  | .error _ => { s with isGenerating := false }

/-- Oracle where the first segment's call fails and later ones succeed. -/
def oracleFail0 : Nat → Except String String
  | 0 => .error "scene 0 failed"
  | _ => .ok "img-new"

/-- Raw script segment as parsed from the gateway response
(`responseSchema` in geminiService.ts): timestamp, text and image
prompt; `rawId` models any extra `id` the gateway might volunteer,
which normalization overrides. -/
structure RawSegment where
  timestamp : String
  text : String
  imagePrompt : String
  rawId : Option String := none
deriving DecidableEq, Repr

/-- Raw script package as parsed from the gateway response. -/
structure RawScript where
  title : String
  description : String
  tags : List String
  cta : String
  thumbnailPrompt : String
  fullScriptPara : String
  mainRefPrompt : String
  segments : List RawSegment
deriving DecidableEq, Repr

/-- `generateScriptPackage` normalization (geminiService.ts lines
94-130): spreads the parsed data and maps each raw segment to a domain
segment with the locally assigned id `seg-<index>`.  The input is
`none` when the response text is not parseable JSON or the parsed value
has no usable `segments` array — in both cases the promise rejects
(`JSON.parse` throws, or `data.segments.map` raises a TypeError).  No
validation of the segment count is performed anywhere. -/
def generateScriptPackage (resp : Option RawScript) : Except String ScriptPackage :=
  match resp with
  | none => .error "TypeError: data.segments is not an array"
  | some raw =>
      .ok { title := raw.title
            description := raw.description
            tags := raw.tags
            cta := raw.cta
            thumbnailPrompt := raw.thumbnailPrompt
            mainRefPrompt := raw.mainRefPrompt
            fullScriptPara := raw.fullScriptPara
            segments := raw.segments.enum.map fun p =>
              { id := "seg-" ++ toString p.1
                timestamp := p.2.timestamp
                text := p.2.text
                imagePrompt := p.2.imagePrompt } }

/-- Segments of a script-generation result (empty on rejection). -/
def scriptSegmentsOf (r : Except String ScriptPackage) : List ScriptSegment :=
  match r with
  | .ok pkg => pkg.segments
  | .error _ => []

/-- Concrete gateway response carrying 7 segments instead of 10. -/
def raw7 : RawScript :=
  { title := "T7", description := "D", tags := [], cta := "C",
    thumbnailPrompt := "TP", fullScriptPara := "F", mainRefPrompt := "M",
    segments := (List.range 7).map fun k =>
      { timestamp := toString (3 * k), text := "t", imagePrompt := "p" } }

/-- Primitive JSON value (the depth at which `fetchTrendingNews`
inspects field values). -/
inductive JsonPrim where
  | null
  | bool (b : Bool)
  | num (n : Int)
  | str (s : String)
deriving DecidableEq, Repr

/-- One element of a parsed JSON array as `fetchTrendingNews` sees it:
an object with its own fields, or a primitive. -/
inductive JsonItem where
  | prim (p : JsonPrim)
  | obj (fields : List (String × JsonPrim))
deriving DecidableEq, Repr

/-- JSON value as produced by `JSON.parse`, modelled to the depth the
function inspects it: the top value is an array of items, an object, or
a primitive. -/
inductive Json where
  | prim (p : JsonPrim)
  | arr (items : List JsonItem)
  | obj (fields : List (String × JsonPrim))
deriving DecidableEq, Repr

/-- Whether a JSON value is an array (a value with a usable `map`). -/
def isArr : Json → Bool
  | .arr _ => true
  | _ => false

/-- Own enumerable fields contributed by `...item` in an object
literal: an object contributes its fields, other values none that a
later field lookup could see. -/
def spreadFields : JsonItem → List (String × JsonPrim)
  | .obj fields => fields
  | _ => []

/-- Field-lookup model of `{ ...fields, k: v }`: field `k` now maps to
`v`, all other fields are kept. -/
def setField (fields : List (String × JsonPrim)) (k : String) (v : JsonPrim) :
    List (String × JsonPrim) :=
  (fields.filter fun p => p.1 != k) ++ [(k, v)]

/-- JS property lookup on an object's field list. -/
def getField (fields : List (String × JsonPrim)) (k : String) : Option JsonPrim :=
  (fields.find? fun p => p.1 == k).map Prod.snd

/-- `fetchTrendingNews` result handling (geminiService.ts lines 63-68):
`parsed` is the JSON of the response text, `none` when `JSON.parse`
throws.  The `try` block also catches the TypeError that `data.map`
raises on any non-array value, returning `[]` there too; on an array,
each item is spread and its `id` overridden with the locally assigned
`news-<index>`. -/
def fetchTrendingNews (parsed : Option Json) : List (List (String × JsonPrim)) :=
  match parsed with
  | some (.arr items) =>
      items.enum.map fun p =>
        setField (spreadFields p.2) "id" (.str ("news-" ++ toString p.1))
  | _ => []

/-- JS `(n).toString().padStart(2, '0')`. -/
def pad2 (n : Nat) : String :=
  let s := toString n
  if s.length < 2 then String.mk (List.replicate (2 - s.length) '0') ++ s else s

/-- Archive entry name for segment position `i` when its motion artifact
is bundled (`scenes/segment_<i+1 padded>_motion.mp4`). -/
def motionName (i : Nat) : String :=
  "scenes/segment_" ++ pad2 (i + 1) ++ "_motion.mp4"

/-- Archive entry name for segment position `i` when its still frame is
bundled (`scenes/segment_<i+1 padded>_frame.png`). -/
def frameName (i : Nat) : String :=
  "scenes/segment_" ++ pad2 (i + 1) ++ "_frame.png"

/-- Lexicographic order on character lists, the order in which archive
entry names sort. -/
def charsLt : List Char → List Char → Bool
  | _, [] => false
  | [], _ :: _ => true
  | a :: as, b :: bs => decide (a < b) || (a == b && charsLt as bs)

/-- Lexicographic order on strings (by character values). -/
def strLt (a b : String) : Bool := charsLt a.data b.data

/-- Entry names contributed by the segments, in segment order. -/
def sceneEntryNames : List ScriptSegment → Nat → List String
  | [], _ => []
  | seg :: rest, i =>
      match seg.videoUrl with
      | some _ => motionName i :: sceneEntryNames rest (i + 1)
      | none =>
          match seg.imageUrl with
          | some _ => frameName i :: sceneEntryNames rest (i + 1)
          | none => sceneEntryNames rest (i + 1)

/-- All entry names of the archive built by `downloadProduction`
(PromptInput.tsx lines 261-326): narration and thumbnail when their
URLs are attached, one entry per segment artifact, and the two
always-present metadata files. -/
def downloadEntryNames (pkg : ScriptPackage) : List String :=
  (if pkg.audioUrl.isSome then ["narration.wav"] else []) ++
  (if pkg.thumbnailUrl.isSome then ["thumbnail.png"] else []) ++
  sceneEntryNames pkg.segments 0 ++
  ["production_metadata.json", "full_script.txt"]

/-- One conditional archive file for narration or thumbnail: fetch the
binary when the URL is attached, contribute nothing when it is not
(PromptInput.tsx lines 274-284). -/
def fetchPart {β : Type} (fetch : String → Option β) (url? : Option String)
    (nm : String) : Option (List (String × β)) :=
  match url? with
  | some url => (fetch url).map fun b => [(nm, b)]
  | none => some []

/-- Per-segment archive files with their fetched binaries
(PromptInput.tsx lines 287-297): motion preferred, else frame, else
nothing; a failed fetch of a needed binary rejects the whole batch
(`Promise.all` semantics). -/
def sceneFiles {β : Type} (fetch : String → Option β) :
    List ScriptSegment → Nat → Option (List (String × β))
  | [], _ => some []
  | seg :: rest, i =>
      match seg.videoUrl with
      | some url =>
          match fetch url with
          | none => none
          | some b =>
              match sceneFiles fetch rest (i + 1) with
              | none => none
              | some others => some ((motionName i, b) :: others)
      | none =>
          match seg.imageUrl with
          | some url =>
              match fetch url with
              | none => none
              | some b =>
                  match sceneFiles fetch rest (i + 1) with
                  | none => none
                  | some others => some ((frameName i, b) :: others)
          | none => sceneFiles fetch rest (i + 1)

/-- The App's `downloadProduction` bundle assembly (PromptInput.tsx
lines 261-326): fetches each attached artifact's binary and assembles
the archive entry list; any failed fetch of an attached artifact lands
in the outer catch, aborting the build with no archive (`none`).
`fetch` is the resolved behaviour of `fetchAsBlob`; the two metadata
entries are built from pure state and always succeed. -/
def downloadProduction {β : Type} (fetch : String → Option β)
    (metaContent scriptContent : β) (pkg : ScriptPackage) :
    Option (List (String × β)) :=
  (fetchPart fetch pkg.audioUrl "narration.wav").bind fun audioFiles =>
  (fetchPart fetch pkg.thumbnailUrl "thumbnail.png").bind fun thumbFiles =>
  (sceneFiles fetch pkg.segments 0).bind fun segFiles =>
  some (audioFiles ++ thumbFiles ++ segFiles ++
    [("production_metadata.json", metaContent), ("full_script.txt", scriptContent)])

/-- An always-failing binary fetch. -/
def fetchNone : String → Option String := fun _ => none

/-- An always-succeeding binary fetch. -/
def fetchAll : String → Option String := fun url => some ("bytes:" ++ url)

set_option maxRecDepth 100000

theorem mergeSegment_id (s : ScriptSegment) (u : SegmentUpdates) :
    (mergeSegment s u).id = s.id := rfl

theorem updFn_id (segId : String) (u : SegmentUpdates) (s : ScriptSegment) :
    (updFn segId u s).id = s.id := by
  unfold updFn; split <;> rfl

theorem segmentsOf_updateSegment (st : WorkflowState) (segId : String) (u : SegmentUpdates) :
    segmentsOf (updateSegment st segId u) = (segmentsOf st).map (updFn segId u) := by
  unfold segmentsOf updateSegment updFn
  cases h : st.scriptPackage <;> simp [h]

theorem updateSegment_audioUrl (st : WorkflowState) (segId : String) (u : SegmentUpdates) :
    audioUrlOf (updateSegment st segId u) = audioUrlOf st := by
  unfold audioUrlOf updateSegment
  cases h : st.scriptPackage <;> simp [h]

theorem updateSegment_thumbnailUrl (st : WorkflowState) (segId : String) (u : SegmentUpdates) :
    thumbnailUrlOf (updateSegment st segId u) = thumbnailUrlOf st := by
  unfold thumbnailUrlOf updateSegment
  cases h : st.scriptPackage <;> simp [h]

theorem updateSegment_isAudioGenerating (st : WorkflowState) (segId : String) (u : SegmentUpdates) :
    isAudioGeneratingOf (updateSegment st segId u) = isAudioGeneratingOf st := by
  unfold isAudioGeneratingOf updateSegment
  cases h : st.scriptPackage <;> simp [h]

theorem updateSegment_step (st : WorkflowState) (segId : String) (u : SegmentUpdates) :
    (updateSegment st segId u).step = st.step := by
  unfold updateSegment
  cases h : st.scriptPackage <;> simp [h]

theorem updateSegment_selectedRef (st : WorkflowState) (segId : String) (u : SegmentUpdates) :
    (updateSegment st segId u).selectedRefImageUrl = st.selectedRefImageUrl := by
  unfold updateSegment
  cases h : st.scriptPackage <;> simp [h]

/-- C2 counterexample: at the moment the new scene-image call is issued
(state `regenerateSceneStart`), segment `seg-0` still holds its old
motion artifact `vid-old` while its image is already pending
(`isGenerating = true`) — the code clears `videoUrl` only later, in the
success update, so the claimed "reset to absent before the call is
issued" is false and the segment does simultaneously hold the old
motion artifact and a pending image. -/
theorem regen_start_keeps_old_motion :
    (segmentsOf (regenerateSceneStart stProd segOld))[0]? =
      some { segOld with isGenerating := true } ∧
    ScriptSegment.videoUrl { segOld with isGenerating := true } = some "vid-old" ∧
    ScriptSegment.isGenerating { segOld with isGenerating := true } = true := by
  refine ⟨by decide, rfl, rfl⟩

/-- C2 (amended): regenerating a segment's image clears that segment's
`videoUrl` only in the success update that also publishes the new
image, after the scene-image call resolves; at the moment the call is
issued the prior `videoUrl` (even a successful one) is still held
alongside the pending image. -/
theorem regenerateScene_motion_cleared_on_success (st : WorkflowState)
    (seg : ScriptSegment) (url : String) (j : Nat) (s : ScriptSegment)
    (href : st.selectedRefImageUrl.isSome = true)
    (hj : (segmentsOf st)[j]? = some s) (hid : s.id = seg.id) :
    (segmentsOf (regenerateSceneStart st seg))[j]? =
      some { s with isGenerating := true } ∧
    (segmentsOf (regenerateScene st seg (.ok url)))[j]? =
      some { s with imageUrl := some url, isGenerating := false, videoUrl := none } := by
  obtain ⟨r, hr⟩ := Option.isSome_iff_exists.mp href
  constructor
  · simp [regenerateSceneStart, hr, segmentsOf_updateSegment, List.getElem?_map, hj,
      updFn, hid, mergeSegment]
  · simp [regenerateScene, hr, segmentsOf_updateSegment, List.getElem?_map, hj,
      updFn, hid, mergeSegment]

/-- C2 witness at a concrete Production state. -/
theorem regenerateScene_motion_cleared_on_success_witness :
    (segmentsOf (regenerateSceneStart stProd segOld))[0]? =
      some { segOld with isGenerating := true } ∧
    (segmentsOf (regenerateScene stProd segOld (.ok "img-new")))[0]? =
      some { segOld with
              imageUrl := some "img-new"
              isGenerating := false
              videoUrl := none } :=
  regenerateScene_motion_cleared_on_success stProd segOld "img-new" 0 segOld
    (by decide) (by decide) rfl

/-- C3: regenerating one segment leaves every sibling segment (any
position holding a segment with a different id) entirely unchanged —
id, timestamp, text, imagePrompt, imageUrl, videoUrl and flags — and
leaves the package's audio and thumbnail fields unchanged, whatever the
outcome of the scene-image call. -/
theorem regenerateScene_preserves_siblings (st : WorkflowState) (seg : ScriptSegment)
    (res : Except String String) (j : Nat) (s : ScriptSegment)
    (hj : (segmentsOf st)[j]? = some s) (hid : ¬ s.id = seg.id) :
    (segmentsOf (regenerateScene st seg res))[j]? = some s ∧
    audioUrlOf (regenerateScene st seg res) = audioUrlOf st ∧
    isAudioGeneratingOf (regenerateScene st seg res) = isAudioGeneratingOf st ∧
    thumbnailUrlOf (regenerateScene st seg res) = thumbnailUrlOf st := by
  cases hr : st.selectedRefImageUrl with
  | none => cases res <;> simp [regenerateScene, hr, hj]
  | some r =>
      cases res with
      | ok url =>
          refine ⟨?_, ?_, ?_, ?_⟩ <;>
            simp [regenerateScene, hr, segmentsOf_updateSegment, List.getElem?_map, hj,
              updFn, hid, updateSegment_audioUrl, updateSegment_isAudioGenerating,
              updateSegment_thumbnailUrl]
      | error e =>
          refine ⟨?_, ?_, ?_, ?_⟩ <;>
            simp [regenerateScene, hr, segmentsOf_updateSegment, List.getElem?_map, hj,
              updFn, hid, updateSegment_audioUrl, updateSegment_isAudioGenerating,
              updateSegment_thumbnailUrl]

/-- C3 witness: regenerating `seg-0` in the concrete state leaves
`seg-1` and the package audio/thumbnail untouched. -/
theorem regenerateScene_preserves_siblings_witness :
    (segmentsOf (regenerateScene stProd segOld (.ok "img-new")))[1]? = some segSib ∧
    audioUrlOf (regenerateScene stProd segOld (.ok "img-new")) = audioUrlOf stProd ∧
    isAudioGeneratingOf (regenerateScene stProd segOld (.ok "img-new")) =
      isAudioGeneratingOf stProd ∧
    thumbnailUrlOf (regenerateScene stProd segOld (.ok "img-new")) =
      thumbnailUrlOf stProd :=
  regenerateScene_preserves_siblings stProd segOld (.ok "img-new") 1 segSib
    (by decide) (by decide)

/-- C10: when the regeneration call fails, the segment keeps its
previously stored `imageUrl` and `videoUrl` exactly as they were; only
`isGenerating` is reset to false. -/
theorem regenerateScene_failure_retains (st : WorkflowState) (seg : ScriptSegment)
    (msg : String) (j : Nat) (s : ScriptSegment)
    (href : st.selectedRefImageUrl.isSome = true)
    (hj : (segmentsOf st)[j]? = some s) (hid : s.id = seg.id) :
    (segmentsOf (regenerateScene st seg (.error msg)))[j]? =
      some { s with isGenerating := false } ∧
    ScriptSegment.imageUrl { s with isGenerating := false } = s.imageUrl ∧
    ScriptSegment.videoUrl { s with isGenerating := false } = s.videoUrl := by
  obtain ⟨r, hr⟩ := Option.isSome_iff_exists.mp href
  refine ⟨?_, rfl, rfl⟩
  simp [regenerateScene, hr, segmentsOf_updateSegment, List.getElem?_map, hj,
    updFn, hid, mergeSegment]

/-- C10 witness: a failed regeneration of `seg-0` in the concrete state
keeps `img-old` and `vid-old`. -/
theorem regenerateScene_failure_retains_witness :
    (segmentsOf (regenerateScene stProd segOld (.error "boom")))[0]? =
      some { segOld with isGenerating := false } ∧
    ScriptSegment.imageUrl { segOld with isGenerating := false } = segOld.imageUrl ∧
    ScriptSegment.videoUrl { segOld with isGenerating := false } = segOld.videoUrl :=
  regenerateScene_failure_retains stProd segOld "boom" 0 segOld (by decide) (by decide) rfl

/-- C7: selecting a news item whose ideation call fails leaves the step
at NEWS with `selectedNews` set to the chosen item, `ideationOptions`
still empty, and every other field untouched. -/
theorem selectNews_failure_stays_news (st : WorkflowState) (item : NewsItem)
    (msg : String) (hstep : st.step = Step.NEWS) (hopts : st.ideationOptions = []) :
    (selectNews st item (.error msg)).step = Step.NEWS ∧
    (selectNews st item (.error msg)).selectedNews = some item ∧
    (selectNews st item (.error msg)).ideationOptions = [] ∧
    (selectNews st item (.error msg)).selectedIdea = st.selectedIdea ∧
    (selectNews st item (.error msg)).scriptPackage = st.scriptPackage ∧
    (selectNews st item (.error msg)).refImages = st.refImages ∧
    (selectNews st item (.error msg)).selectedRefImageUrl = st.selectedRefImageUrl ∧
    (selectNews st item (.error msg)).needsApiKey = st.needsApiKey := by
  simp [selectNews, hstep, hopts]

/-- C7 witness at the fresh NEWS state. -/
theorem selectNews_failure_stays_news_witness :
    (selectNews stNews item0 (.error "down")).step = Step.NEWS ∧
    (selectNews stNews item0 (.error "down")).selectedNews = some item0 ∧
    (selectNews stNews item0 (.error "down")).ideationOptions = [] ∧
    (selectNews stNews item0 (.error "down")).selectedIdea = stNews.selectedIdea ∧
    (selectNews stNews item0 (.error "down")).scriptPackage = stNews.scriptPackage ∧
    (selectNews stNews item0 (.error "down")).refImages = stNews.refImages ∧
    (selectNews stNews item0 (.error "down")).selectedRefImageUrl =
      stNews.selectedRefImageUrl ∧
    (selectNews stNews item0 (.error "down")).needsApiKey = stNews.needsApiKey :=
  selectNews_failure_stays_news stNews item0 "down" rfl rfl

/-- C8: invoking `animateScene` on a segment with no successful image
takes the early-return precondition branch: the outcome is `noImage`
and the whole workflow state — in particular that segment's
`videoUrl`/`isVideoGenerating` — is returned untouched. -/
theorem animateScene_without_image (st : WorkflowState) (seg : ScriptSegment)
    (hasKey : Bool) (video : Except String String) (h : seg.imageUrl = none) :
    animateScene st seg hasKey video = (st, AnimateOutcome.noImage) := by
  simp [animateScene, h]

/-- C8 witness: animating the imageless segment in the concrete state
is a no-op with the precondition outcome. -/
theorem animateScene_without_image_witness :
    animateScene stProd segNoImg true (.ok "vid") = (stProd, AnimateOutcome.noImage) :=
  animateScene_without_image stProd segNoImg true (.ok "vid") rfl

theorem stepResolve_id (r : Except String String) (s : ScriptSegment) :
    (stepResolve r s).id = s.id := by
  cases r <;> rfl

theorem map_updFn_of_not_mem (segId : String) (u : SegmentUpdates) :
    ∀ l : List ScriptSegment, segId ∉ l.map (fun s => s.id) →
      l.map (updFn segId u) = l := by
  intro l
  induction l with
  | nil => intro _; rfl
  | cons x xs ih =>
      intro h
      simp only [List.map_cons, List.mem_cons, not_or] at h
      obtain ⟨h1, h2⟩ := h
      have hx : updFn segId u x = x := by
        unfold updFn
        rw [if_neg]
        intro hc
        exact h1 hc.symm
      simp [hx, ih h2]

theorem updFn_twice (segId : String) (u1 u2 : SegmentUpdates) (s : ScriptSegment)
    (h : s.id = segId) :
    updFn segId u2 (updFn segId u1 s) = mergeSegment (mergeSegment s u1) u2 := by
  unfold updFn
  rw [if_pos h, if_pos (by rw [mergeSegment_id]; exact h)]

theorem sceneLoop_trace (o : Nat → Except String String) :
    ∀ (segs : List ScriptSegment) (i : Nat) (st : WorkflowState),
      (sceneLoop o segs i st).2 =
        (List.enumFrom i segs).flatMap fun p =>
          [SceneEvent.started p.2.id, SceneEvent.resolved p.2.id (exceptOk (o p.1))] := by
  intro segs
  induction segs with
  | nil => intro i st; simp [sceneLoop, List.enumFrom]
  | cons seg rest ih => intro i st; simp [sceneLoop, List.enumFrom, ih]

theorem sceneLoop_state (o : Nat → Except String String) :
    ∀ (segs : List ScriptSegment) (i : Nat) (st : WorkflowState)
      (pre : List ScriptSegment),
      segmentsOf st = pre ++ segs →
      ((pre ++ segs).map (fun s => s.id)).Nodup →
      segmentsOf (sceneLoop o segs i st).1 =
        pre ++ (List.enumFrom i segs).map (fun p => stepResolve (o p.1) p.2) := by
  intro segs
  induction segs with
  | nil =>
      intro i st pre hst hnd
      simpa [sceneLoop, List.enumFrom] using hst
  | cons seg rest ih =>
      intro i st pre hst hnd
      have hnd' : ((pre.map fun s => s.id) ++
          (seg.id :: rest.map fun s => s.id)).Nodup := by
        simpa [List.map_append] using hnd
      rcases List.nodup_append.mp hnd' with ⟨hpre, hcons, hdisj⟩
      have hsegpre : seg.id ∉ pre.map (fun s => s.id) := fun hmem =>
        hdisj hmem (by simp)
      have hsegrest : seg.id ∉ rest.map (fun s => s.id) :=
        (List.nodup_cons.mp hcons).1
      have hst2 : segmentsOf (resolveUpdate (o i) seg.id
          (updateSegment st seg.id { isGenerating := some true })) =
          (pre ++ [stepResolve (o i) seg]) ++ rest := by
        cases ho : o i with
        | ok url =>
            rw [resolveUpdate]
            rw [segmentsOf_updateSegment, segmentsOf_updateSegment, hst]
            rw [List.map_append, List.map_append, List.map_cons, List.map_cons,
              map_updFn_of_not_mem _ _ pre hsegpre,
              map_updFn_of_not_mem _ _ pre hsegpre,
              map_updFn_of_not_mem _ _ rest hsegrest,
              map_updFn_of_not_mem _ _ rest hsegrest,
              updFn_twice _ _ _ _ rfl]
            simp [mergeSegment, stepResolve]
        | error e =>
            rw [resolveUpdate]
            rw [segmentsOf_updateSegment, segmentsOf_updateSegment, hst]
            rw [List.map_append, List.map_append, List.map_cons, List.map_cons,
              map_updFn_of_not_mem _ _ pre hsegpre,
              map_updFn_of_not_mem _ _ pre hsegpre,
              map_updFn_of_not_mem _ _ rest hsegrest,
              map_updFn_of_not_mem _ _ rest hsegrest,
              updFn_twice _ _ _ _ rfl]
            simp [mergeSegment, stepResolve]
      have hnd2 : (((pre ++ [stepResolve (o i) seg]) ++ rest).map
          (fun s => s.id)).Nodup := by
        simpa [List.map_append, stepResolve_id] using hnd'
      have hres := ih (i + 1)
        (resolveUpdate (o i) seg.id (updateSegment st seg.id { isGenerating := some true }))
        (pre ++ [stepResolve (o i) seg]) hst2 hnd2
      simp only [sceneLoop]
      rw [hres]
      simp [List.enumFrom, List.append_assoc]

/-- C4: during Production, scene-image tasks run strictly sequentially
in segment order — the event trace of the loop is exactly one
`started`/`resolved` pair per segment, in segment order, so segment
`i+1`'s call is issued only after segment `i`'s call has resolved — and
a failure only marks its own segment not-generating (`stepResolve` of
an error sets nothing but `isGenerating := false`) while every segment,
including all those after a failed one, is still processed. -/
theorem production_scenes_sequential (o : Nat → Except String String)
    (st : WorkflowState) (segs : List ScriptSegment)
    (hst : segmentsOf st = segs)
    (hnd : (segs.map fun s => s.id).Nodup) :
    (sceneLoop o segs 0 st).2 =
      segs.enum.flatMap (fun p =>
        [SceneEvent.started p.2.id, SceneEvent.resolved p.2.id (exceptOk (o p.1))]) ∧
    segmentsOf (sceneLoop o segs 0 st).1 =
      segs.enum.map (fun p => stepResolve (o p.1) p.2) := by
  constructor
  · have h := sceneLoop_trace o segs 0 st
    simpa [List.enum] using h
  · have h := sceneLoop_state o segs 0 st [] (by simpa using hst) (by simpa using hnd)
    simpa [List.enum] using h

/-- C4 witness: concrete two-segment run where segment 0 fails. -/
theorem production_scenes_sequential_witness :
    (sceneLoop oracleFail0 [segOld, segSib] 0 stProd).2 =
      ([segOld, segSib].enum).flatMap (fun p =>
        [SceneEvent.started p.2.id, SceneEvent.resolved p.2.id (exceptOk (oracleFail0 p.1))]) ∧
    segmentsOf (sceneLoop oracleFail0 [segOld, segSib] 0 stProd).1 =
      ([segOld, segSib].enum).map (fun p => stepResolve (oracleFail0 p.1) p.2) :=
  production_scenes_sequential oracleFail0 stProd [segOld, segSib] (by decide) (by decide)

/-- C1 counterexample: a gateway response with 7 segments is accepted
and published as-is with 7 segments — it is neither rejected as
malformed nor truncated or padded to 10, so the published
`scriptPackage.segments` length is not 10. -/
theorem script_count_not_validated :
    (generateScriptPackage (some raw7)).toOption.map
      (fun pkg => pkg.segments.length) = some 7 := by decide

/-- C1 (amended): script generation assigns the stable locally
generated id `seg-<index>` to every segment of every accepted response,
and the only rejection is a response without a usable `segments` array;
the segment count is published exactly as the gateway returned it — no
count validation, truncation or padding to 10 happens. -/
theorem generateScriptPackage_normalization (raw : RawScript) (k : Nat)
    (s : ScriptSegment)
    (hk : (scriptSegmentsOf (generateScriptPackage (some raw)))[k]? = some s) :
    (∃ e, generateScriptPackage none = .error e) ∧
    (generateScriptPackage (some raw)).toOption.isSome = true ∧
    (scriptSegmentsOf (generateScriptPackage (some raw))).length =
      raw.segments.length ∧
    s.id = "seg-" ++ toString k := by
  refine ⟨⟨_, rfl⟩, rfl, by simp [generateScriptPackage, scriptSegmentsOf], ?_⟩
  rw [generateScriptPackage, scriptSegmentsOf] at hk
  rw [List.getElem?_map, List.getElem?_enum] at hk
  cases hx : raw.segments[k]? with
  | none => rw [hx] at hk; exact absurd hk (by simp)
  | some x =>
      rw [hx] at hk
      simp only [Option.map_some', Option.some.injEq] at hk
      rw [← hk]

/-- C1 witness: in the 7-segment response, segment 3 carries the
locally assigned id `seg-3`. -/
theorem generateScriptPackage_normalization_witness :
    (∃ e, generateScriptPackage none = .error e) ∧
    (generateScriptPackage (some raw7)).toOption.isSome = true ∧
    (scriptSegmentsOf (generateScriptPackage (some raw7))).length =
      raw7.segments.length ∧
    ScriptSegment.id
      { id := "seg-3", timestamp := "9", text := "t", imagePrompt := "p" } =
      "seg-" ++ toString 3 :=
  generateScriptPackage_normalization raw7 3
    { id := "seg-3", timestamp := "9", text := "t", imagePrompt := "p" } (by decide)

theorem getField_setField (fields : List (String × JsonPrim)) (k : String)
    (v : JsonPrim) :
    getField (setField fields k v) k = some v := by
  unfold getField setField
  rw [List.find?_append]
  have h1 : (fields.filter fun p => p.1 != k).find? (fun p => p.1 == k) = none := by
    rw [List.find?_eq_none]
    intro p hp
    have h2 := List.of_mem_filter hp
    simp at h2 ⊢
    exact h2
  rw [h1]
  simp [List.find?]

/-- C9: an unparseable response yields the empty news list instead of
raising, any parseable non-array response also yields the empty list,
and on an array response every returned item's `id` is the locally
assigned `news-<index>` determined by its position — never the
gateway's own value. -/
theorem fetchTrendingNews_resilient_local_ids (j : Json) (items : List JsonItem)
    (k : Nat) (item : List (String × JsonPrim))
    (hnotarr : isArr j = false)
    (hk : (fetchTrendingNews (some (.arr items)))[k]? = some item) :
    fetchTrendingNews none = [] ∧
    fetchTrendingNews (some j) = [] ∧
    getField item "id" = some (.str ("news-" ++ toString k)) := by
  refine ⟨rfl, ?_, ?_⟩
  · cases j <;> simp_all [fetchTrendingNews, isArr]
  · rw [fetchTrendingNews] at hk
    rw [List.getElem?_map, List.getElem?_enum] at hk
    cases hx : items[k]? with
    | none => rw [hx] at hk; exact absurd hk (by simp)
    | some x =>
        rw [hx] at hk
        simp only [Option.map_some', Option.some.injEq] at hk
        rw [← hk]
        exact getField_setField _ _ _

/-- C9 witness: one gateway item that even carries its own `id` field;
the returned item's `id` is still the locally assigned `news-0`. -/
theorem fetchTrendingNews_resilient_local_ids_witness :
    fetchTrendingNews none = [] ∧
    fetchTrendingNews (some (.prim (.num 5))) = [] ∧
    getField [("title", JsonPrim.str "T"), ("id", JsonPrim.str "news-0")] "id" =
      some (.str ("news-" ++ toString 0)) :=
  fetchTrendingNews_resilient_local_ids (.prim (.num 5))
    [.obj [("id", .str "gateway-given"), ("title", .str "T")]] 0
    [("title", JsonPrim.str "T"), ("id", JsonPrim.str "news-0")] rfl rfl

theorem pad2_two_digits : ∀ a : Fin 10, (pad2 (a.1 + 1)).length = 2 := by decide

theorem pad2_inj10 : ∀ a b : Fin 10, pad2 (a.1 + 1) = pad2 (b.1 + 1) → a = b := by
  decide

theorem sceneNames_sorted10 : ∀ a b : Fin 10, a < b →
    strLt (motionName a.1) (motionName b.1) = true ∧
    strLt (motionName a.1) (frameName b.1) = true ∧
    strLt (frameName a.1) (motionName b.1) = true ∧
    strLt (frameName a.1) (frameName b.1) = true := by decide

theorem motionName_length (k : Nat) (hk : k < 10) : (motionName k).length = 28 := by
  have h := pad2_two_digits ⟨k, hk⟩
  rw [motionName, String.length_append, String.length_append, h]
  decide

theorem frameName_length (k : Nat) (hk : k < 10) : (frameName k).length = 27 := by
  have h := pad2_two_digits ⟨k, hk⟩
  rw [frameName, String.length_append, String.length_append, h]
  decide

theorem sceneEntryNames_mem_of :
    ∀ (segs : List ScriptSegment) (i k : Nat) (seg : ScriptSegment),
      segs[k]? = some seg →
      (seg.videoUrl.isSome = true → motionName (i + k) ∈ sceneEntryNames segs i) ∧
      (seg.videoUrl = none → seg.imageUrl.isSome = true →
        frameName (i + k) ∈ sceneEntryNames segs i) := by
  intro segs
  induction segs with
  | nil => intro i k seg h; simp at h
  | cons s rest ih =>
      intro i k seg h
      cases k with
      | zero =>
          simp only [List.getElem?_cons_zero, Option.some.injEq] at h
          subst h
          constructor
          · intro hv
            cases hvv : s.videoUrl with
            | none => rw [hvv] at hv; simp at hv
            | some v => simp [sceneEntryNames, hvv]
          · intro hv hi
            cases hii : s.imageUrl with
            | none => rw [hii] at hi; simp at hi
            | some u => simp [sceneEntryNames, hv, hii]
      | succ k =>
          simp only [List.getElem?_cons_succ] at h
          have heq : (i + 1) + k = i + (k + 1) := by omega
          constructor
          · intro hv
            have hm := (ih (i + 1) k seg h).1 hv
            rw [heq] at hm
            cases hsv : s.videoUrl with
            | some v => simp [sceneEntryNames, hsv]; right; exact hm
            | none =>
                cases hsi : s.imageUrl with
                | some u => simp [sceneEntryNames, hsv, hsi]; right; exact hm
                | none => simpa [sceneEntryNames, hsv, hsi] using hm
          · intro hv hi
            have hm := (ih (i + 1) k seg h).2 hv hi
            rw [heq] at hm
            cases hsv : s.videoUrl with
            | some v => simp [sceneEntryNames, hsv]; right; exact hm
            | none =>
                cases hsi : s.imageUrl with
                | some u => simp [sceneEntryNames, hsv, hsi]; right; exact hm
                | none => simpa [sceneEntryNames, hsv, hsi] using hm

theorem sceneEntryNames_mem_inv :
    ∀ (segs : List ScriptSegment) (i : Nat) (e : String),
      e ∈ sceneEntryNames segs i →
      ∃ k seg, segs[k]? = some seg ∧
        ((seg.videoUrl.isSome = true ∧ e = motionName (i + k)) ∨
         (seg.videoUrl = none ∧ seg.imageUrl.isSome = true ∧ e = frameName (i + k))) := by
  intro segs
  induction segs with
  | nil => intro i e h; simp [sceneEntryNames] at h
  | cons s rest ih =>
      intro i e h
      cases hsv : s.videoUrl with
      | some v =>
          simp only [sceneEntryNames, hsv] at h
          rcases List.mem_cons.mp h with rfl | hmem
          · exact ⟨0, s, by simp, Or.inl ⟨by simp [hsv], by simp⟩⟩
          · obtain ⟨k, seg, hks, hcond⟩ := ih (i + 1) e hmem
            refine ⟨k + 1, seg, by simpa using hks, ?_⟩
            have heq : (i + 1) + k = i + (k + 1) := by omega
            rw [heq] at hcond
            exact hcond
      | none =>
          cases hsi : s.imageUrl with
          | some u =>
              simp only [sceneEntryNames, hsv, hsi] at h
              rcases List.mem_cons.mp h with rfl | hmem
              · exact ⟨0, s, by simp, Or.inr ⟨hsv, by simp [hsi], by simp⟩⟩
              · obtain ⟨k, seg, hks, hcond⟩ := ih (i + 1) e hmem
                refine ⟨k + 1, seg, by simpa using hks, ?_⟩
                have heq : (i + 1) + k = i + (k + 1) := by omega
                rw [heq] at hcond
                exact hcond
          | none =>
              simp only [sceneEntryNames, hsv, hsi] at h
              obtain ⟨k, seg, hks, hcond⟩ := ih (i + 1) e h
              refine ⟨k + 1, seg, by simpa using hks, ?_⟩
              have heq : (i + 1) + k = i + (k + 1) := by omega
              rw [heq] at hcond
              exact hcond

theorem lt_length_of_getElem?_some {α : Type} (l : List α) (n : Nat) (a : α)
    (h : l[n]? = some a) : n < l.length := by
  by_contra hc
  rw [List.getElem?_eq_none (by omega)] at h
  exact Option.noConfusion h

theorem motionName_ne_fixed (k : Nat) (hk : k < 10) :
    motionName k ≠ "narration.wav" ∧ motionName k ≠ "thumbnail.png" ∧
    motionName k ≠ "production_metadata.json" ∧ motionName k ≠ "full_script.txt" := by
  have hl := motionName_length k hk
  refine ⟨fun h => ?_, fun h => ?_, fun h => ?_, fun h => ?_⟩ <;>
    rw [h] at hl <;> exact absurd hl (by decide)

theorem frameName_ne_fixed (k : Nat) (hk : k < 10) :
    frameName k ≠ "narration.wav" ∧ frameName k ≠ "thumbnail.png" ∧
    frameName k ≠ "production_metadata.json" ∧ frameName k ≠ "full_script.txt" := by
  have hl := frameName_length k hk
  refine ⟨fun h => ?_, fun h => ?_, fun h => ?_, fun h => ?_⟩ <;>
    rw [h] at hl <;> exact absurd hl (by decide)

theorem motionName_ne_frameName (a b : Nat) (ha : a < 10) (hb : b < 10) :
    motionName a ≠ frameName b := by
  intro h
  have hm := motionName_length a ha
  have hf := frameName_length b hb
  rw [h, hf] at hm
  exact absurd hm (by decide)

theorem motionName_inj10 (a b : Nat) (ha : a < 10) (hb : b < 10)
    (h : motionName a = motionName b) : a = b := by
  have hd := congrArg String.data h
  simp only [motionName, String.data_append, List.append_assoc] at hd
  have h1 := List.append_cancel_left hd
  have h2 := List.append_cancel_right h1
  have h3 : pad2 (a + 1) = pad2 (b + 1) := String.ext h2
  have h4 := pad2_inj10 ⟨a, ha⟩ ⟨b, hb⟩ h3
  exact congrArg Fin.val h4

theorem frameName_inj10 (a b : Nat) (ha : a < 10) (hb : b < 10)
    (h : frameName a = frameName b) : a = b := by
  have hd := congrArg String.data h
  simp only [frameName, String.data_append, List.append_assoc] at hd
  have h1 := List.append_cancel_left hd
  have h2 := List.append_cancel_right h1
  have h3 : pad2 (a + 1) = pad2 (b + 1) := String.ext h2
  have h4 := pad2_inj10 ⟨a, ha⟩ ⟨b, hb⟩ h3
  exact congrArg Fin.val h4

theorem mem_downloadEntryNames (pkg : ScriptPackage) (e : String) :
    e ∈ downloadEntryNames pkg ↔
      (pkg.audioUrl.isSome = true ∧ e = "narration.wav") ∨
      (pkg.thumbnailUrl.isSome = true ∧ e = "thumbnail.png") ∨
      e ∈ sceneEntryNames pkg.segments 0 ∨
      e = "production_metadata.json" ∨ e = "full_script.txt" := by
  unfold downloadEntryNames
  cases ha : pkg.audioUrl.isSome <;> cases ht : pkg.thumbnailUrl.isSome <;>
    simp [List.mem_append]

/-- C5: the assembled bundle has exactly one entry per successful
artifact — `narration.wav` present iff the audio URL is attached,
`thumbnail.png` iff the thumbnail is, and per segment exactly one of
`segment_<2-digit-index>_motion`/`segment_<2-digit-index>_frame`
(motion preferred, omitted when neither artifact exists), with the
2-digit index zero-padded from the segment's position so that entry
names sort lexicographically in playback order; no entry exists for any
pending or failed artifact.  The position bound matches the app's fixed
10-segment package shape, on which the 2-digit index is faithful. -/
theorem downloadProduction_entry_names (pkg : ScriptPackage)
    (hlen : pkg.segments.length ≤ 10) :
    ("narration.wav" ∈ downloadEntryNames pkg ↔ pkg.audioUrl.isSome = true) ∧
    ("thumbnail.png" ∈ downloadEntryNames pkg ↔ pkg.thumbnailUrl.isSome = true) ∧
    (∀ (k : Nat) (seg : ScriptSegment), pkg.segments[k]? = some seg →
      (seg.videoUrl.isSome = true →
        motionName k ∈ downloadEntryNames pkg ∧
        frameName k ∉ downloadEntryNames pkg) ∧
      (seg.videoUrl = none → seg.imageUrl.isSome = true →
        frameName k ∈ downloadEntryNames pkg ∧
        motionName k ∉ downloadEntryNames pkg) ∧
      (seg.videoUrl = none → seg.imageUrl = none →
        motionName k ∉ downloadEntryNames pkg ∧
        frameName k ∉ downloadEntryNames pkg)) ∧
    (∀ a b : Nat, a < b → b < pkg.segments.length →
      strLt (motionName a) (motionName b) = true ∧
      strLt (motionName a) (frameName b) = true ∧
      strLt (frameName a) (motionName b) = true ∧
      strLt (frameName a) (frameName b) = true) := by
  refine ⟨?_, ?_, ?_, ?_⟩
  · constructor
    · intro hmem
      rcases (mem_downloadEntryNames pkg _).mp hmem with
        ⟨ha, _⟩ | ⟨_, he⟩ | hsc | he | he
      · exact ha
      · exact absurd he (by decide)
      · obtain ⟨m, segm, hm, hcond⟩ := sceneEntryNames_mem_inv _ 0 _ hsc
        simp only [Nat.zero_add] at hcond
        have hm10 : m < 10 :=
          lt_of_lt_of_le (lt_length_of_getElem?_some _ _ _ hm) hlen
        rcases hcond with ⟨_, he⟩ | ⟨_, _, he⟩
        · exact absurd he.symm (motionName_ne_fixed m hm10).1
        · exact absurd he.symm (frameName_ne_fixed m hm10).1
      · exact absurd he (by decide)
      · exact absurd he (by decide)
    · intro ha
      exact (mem_downloadEntryNames pkg _).mpr (Or.inl ⟨ha, rfl⟩)
  · constructor
    · intro hmem
      rcases (mem_downloadEntryNames pkg _).mp hmem with
        ⟨_, he⟩ | ⟨ht, _⟩ | hsc | he | he
      · exact absurd he (by decide)
      · exact ht
      · obtain ⟨m, segm, hm, hcond⟩ := sceneEntryNames_mem_inv _ 0 _ hsc
        simp only [Nat.zero_add] at hcond
        have hm10 : m < 10 :=
          lt_of_lt_of_le (lt_length_of_getElem?_some _ _ _ hm) hlen
        rcases hcond with ⟨_, he⟩ | ⟨_, _, he⟩
        · exact absurd he.symm (motionName_ne_fixed m hm10).2.1
        · exact absurd he.symm (frameName_ne_fixed m hm10).2.1
      · exact absurd he (by decide)
      · exact absurd he (by decide)
    · intro ht
      exact (mem_downloadEntryNames pkg _).mpr (Or.inr (Or.inl ⟨ht, rfl⟩))
  · intro k seg hks
    have hk10 : k < 10 :=
      lt_of_lt_of_le (lt_length_of_getElem?_some _ _ _ hks) hlen
    have hkmem := sceneEntryNames_mem_of pkg.segments 0 k seg hks
    simp only [Nat.zero_add] at hkmem
    refine ⟨?_, ?_, ?_⟩
    · intro hv
      constructor
      · exact (mem_downloadEntryNames pkg _).mpr
          (Or.inr (Or.inr (Or.inl (hkmem.1 hv))))
      · intro hmem
        rcases (mem_downloadEntryNames pkg _).mp hmem with
          ⟨_, he⟩ | ⟨_, he⟩ | hsc | he | he
        · exact absurd he (frameName_ne_fixed k hk10).1
        · exact absurd he (frameName_ne_fixed k hk10).2.1
        · obtain ⟨m, segm, hm, hcond⟩ := sceneEntryNames_mem_inv _ 0 _ hsc
          simp only [Nat.zero_add] at hcond
          have hm10 : m < 10 :=
            lt_of_lt_of_le (lt_length_of_getElem?_some _ _ _ hm) hlen
          rcases hcond with ⟨hvm, he⟩ | ⟨hvm, _, he⟩
          · exact absurd he.symm (motionName_ne_frameName m k hm10 hk10)
          · have hkm : k = m := frameName_inj10 k m hk10 hm10 he
            subst hkm
            rw [hks] at hm
            injection hm with hseg
            rw [← hseg] at hvm
            rw [hvm] at hv
            exact absurd hv (by decide)
        · exact absurd he (frameName_ne_fixed k hk10).2.2.1
        · exact absurd he (frameName_ne_fixed k hk10).2.2.2
    · intro hv hi
      constructor
      · exact (mem_downloadEntryNames pkg _).mpr
          (Or.inr (Or.inr (Or.inl (hkmem.2 hv hi))))
      · intro hmem
        rcases (mem_downloadEntryNames pkg _).mp hmem with
          ⟨_, he⟩ | ⟨_, he⟩ | hsc | he | he
        · exact absurd he (motionName_ne_fixed k hk10).1
        · exact absurd he (motionName_ne_fixed k hk10).2.1
        · obtain ⟨m, segm, hm, hcond⟩ := sceneEntryNames_mem_inv _ 0 _ hsc
          simp only [Nat.zero_add] at hcond
          have hm10 : m < 10 :=
            lt_of_lt_of_le (lt_length_of_getElem?_some _ _ _ hm) hlen
          rcases hcond with ⟨hvm, he⟩ | ⟨hvm, _, he⟩
          · have hkm : k = m := motionName_inj10 k m hk10 hm10 he
            subst hkm
            rw [hks] at hm
            injection hm with hseg
            rw [← hseg] at hvm
            rw [hv] at hvm
            exact absurd hvm (by decide)
          · exact absurd he (motionName_ne_frameName k m hk10 hm10)
        · exact absurd he (motionName_ne_fixed k hk10).2.2.1
        · exact absurd he (motionName_ne_fixed k hk10).2.2.2
    · intro hv hi
      constructor
      · intro hmem
        rcases (mem_downloadEntryNames pkg _).mp hmem with
          ⟨_, he⟩ | ⟨_, he⟩ | hsc | he | he
        · exact absurd he (motionName_ne_fixed k hk10).1
        · exact absurd he (motionName_ne_fixed k hk10).2.1
        · obtain ⟨m, segm, hm, hcond⟩ := sceneEntryNames_mem_inv _ 0 _ hsc
          simp only [Nat.zero_add] at hcond
          have hm10 : m < 10 :=
            lt_of_lt_of_le (lt_length_of_getElem?_some _ _ _ hm) hlen
          rcases hcond with ⟨hvm, he⟩ | ⟨hvm, _, he⟩
          · have hkm : k = m := motionName_inj10 k m hk10 hm10 he
            subst hkm
            rw [hks] at hm
            injection hm with hseg
            rw [← hseg] at hvm
            rw [hv] at hvm
            exact absurd hvm (by decide)
          · exact absurd he (motionName_ne_frameName k m hk10 hm10)
        · exact absurd he (motionName_ne_fixed k hk10).2.2.1
        · exact absurd he (motionName_ne_fixed k hk10).2.2.2
      · intro hmem
        rcases (mem_downloadEntryNames pkg _).mp hmem with
          ⟨_, he⟩ | ⟨_, he⟩ | hsc | he | he
        · exact absurd he (frameName_ne_fixed k hk10).1
        · exact absurd he (frameName_ne_fixed k hk10).2.1
        · obtain ⟨m, segm, hm, hcond⟩ := sceneEntryNames_mem_inv _ 0 _ hsc
          simp only [Nat.zero_add] at hcond
          have hm10 : m < 10 :=
            lt_of_lt_of_le (lt_length_of_getElem?_some _ _ _ hm) hlen
          rcases hcond with ⟨hvm, he⟩ | ⟨hvm, him, he⟩
          · exact absurd he.symm (motionName_ne_frameName m k hm10 hk10)
          · have hkm : k = m := frameName_inj10 k m hk10 hm10 he
            subst hkm
            rw [hks] at hm
            injection hm with hseg
            rw [← hseg] at him
            rw [hi] at him
            exact absurd him (by decide)
        · exact absurd he (frameName_ne_fixed k hk10).2.2.1
        · exact absurd he (frameName_ne_fixed k hk10).2.2.2
  · intro a b hab hb
    have hb10 : b < 10 := lt_of_lt_of_le hb hlen
    have ha10 : a < 10 := lt_trans hab hb10
    exact sceneNames_sorted10 ⟨a, ha10⟩ ⟨b, hb10⟩ hab

theorem downloadProduction_entry_names_witness :
    "narration.wav" ∈ downloadEntryNames pkgTwo ∧
    motionName 0 ∈ downloadEntryNames pkgTwo ∧
    frameName 0 ∉ downloadEntryNames pkgTwo ∧
    frameName 1 ∈ downloadEntryNames pkgTwo ∧
    strLt (motionName 0) (frameName 1) = true :=
  have h := downloadProduction_entry_names pkgTwo (by decide)
  ⟨h.1.mpr rfl,
   ((h.2.2.1 0 segOld (by decide)).1 rfl).1,
   ((h.2.2.1 0 segOld (by decide)).1 rfl).2,
   ((h.2.2.1 1 segSib (by decide)).2.1 rfl rfl).1,
   (h.2.2.2 0 1 (by decide) (by decide)).2.1⟩

theorem sceneFiles_abort {β : Type} (fetch : String → Option β) :
    ∀ (segs : List ScriptSegment) (i k : Nat) (seg : ScriptSegment) (url : String),
      segs[k]? = some seg →
      (seg.videoUrl = some url ∨ (seg.videoUrl = none ∧ seg.imageUrl = some url)) →
      fetch url = none →
      sceneFiles fetch segs i = none := by
  intro segs
  induction segs with
  | nil => intro i k seg url h _ _; simp at h
  | cons s rest ih =>
      intro i k seg url h hsel hf
      cases k with
      | zero =>
          simp only [List.getElem?_cons_zero, Option.some.injEq] at h
          subst h
          rcases hsel with hv | ⟨hv, hi⟩
          · simp [sceneFiles, hv, hf]
          · simp [sceneFiles, hv, hi, hf]
      | succ k =>
          simp only [List.getElem?_cons_succ] at h
          have htail := ih (i + 1) k seg url h hsel hf
          cases hsv : s.videoUrl with
          | some v =>
              cases hfv : fetch v <;> simp [sceneFiles, hsv, hfv, htail]
          | none =>
              cases hsi : s.imageUrl with
              | some u =>
                  cases hfu : fetch u <;> simp [sceneFiles, hsv, hsi, hfu, htail]
              | none => simp [sceneFiles, hsv, hsi, htail]

theorem sceneFiles_complete {β : Type} (fetch : String → Option β) :
    ∀ (segs : List ScriptSegment) (i : Nat),
      (∀ (k : Nat) (seg : ScriptSegment) (url : String), segs[k]? = some seg →
        (seg.videoUrl = some url ∨ (seg.videoUrl = none ∧ seg.imageUrl = some url)) →
        (fetch url).isSome = true) →
      ∃ l, sceneFiles fetch segs i = some l ∧
        l.map Prod.fst = sceneEntryNames segs i := by
  intro segs
  induction segs with
  | nil => intro i _; exact ⟨[], rfl, rfl⟩
  | cons s rest ih =>
      intro i hall
      obtain ⟨l, hl, hnames⟩ :=
        ih (i + 1) (fun k seg url hk => hall (k + 1) seg url (by simpa using hk))
      cases hsv : s.videoUrl with
      | some v =>
          have hfv := hall 0 s v (by simp) (Or.inl hsv)
          obtain ⟨b, hb⟩ := Option.isSome_iff_exists.mp hfv
          exact ⟨(motionName i, b) :: l, by simp [sceneFiles, hsv, hb, hl],
            by simp [sceneEntryNames, hsv, hnames]⟩
      | none =>
          cases hsi : s.imageUrl with
          | some u =>
              have hfu := hall 0 s u (by simp) (Or.inr ⟨hsv, hsi⟩)
              obtain ⟨b, hb⟩ := Option.isSome_iff_exists.mp hfu
              exact ⟨(frameName i, b) :: l, by simp [sceneFiles, hsv, hsi, hb, hl],
                by simp [sceneEntryNames, hsv, hsi, hnames]⟩
          | none =>
              exact ⟨l, by simp [sceneFiles, hsv, hsi, hl],
                by simp [sceneEntryNames, hsv, hsi, hnames]⟩

/-- C6: if fetching the binary of any artifact recorded as successful
(an attached audio/thumbnail URL or a segment's preferred artifact)
fails during bundle assembly, the whole build aborts and no archive is
emitted; when every needed fetch succeeds, an archive is produced whose
entries are exactly `downloadEntryNames` — artifacts missing because
generation failed or never ran are simply omitted and never make the
build fail. -/
theorem downloadProduction_abort_vs_degraded {β : Type} (fetch : String → Option β)
    (metaContent scriptContent : β) (pkg : ScriptPackage) :
    (∀ url, pkg.audioUrl = some url → fetch url = none →
      downloadProduction fetch metaContent scriptContent pkg = none) ∧
    (∀ url, pkg.thumbnailUrl = some url → fetch url = none →
      downloadProduction fetch metaContent scriptContent pkg = none) ∧
    (∀ (k : Nat) (seg : ScriptSegment) (url : String), pkg.segments[k]? = some seg →
      (seg.videoUrl = some url ∨ (seg.videoUrl = none ∧ seg.imageUrl = some url)) →
      fetch url = none →
      downloadProduction fetch metaContent scriptContent pkg = none) ∧
    ((∀ url, pkg.audioUrl = some url → (fetch url).isSome = true) →
     (∀ url, pkg.thumbnailUrl = some url → (fetch url).isSome = true) →
     (∀ (k : Nat) (seg : ScriptSegment) (url : String), pkg.segments[k]? = some seg →
       (seg.videoUrl = some url ∨ (seg.videoUrl = none ∧ seg.imageUrl = some url)) →
       (fetch url).isSome = true) →
     ∃ l, downloadProduction fetch metaContent scriptContent pkg = some l ∧
       l.map Prod.fst = downloadEntryNames pkg) := by
  refine ⟨?_, ?_, ?_, ?_⟩
  · intro url hu hf
    simp [downloadProduction, fetchPart, hu, hf]
  · intro url hu hf
    cases hA : fetchPart fetch pkg.audioUrl "narration.wav" <;>
      simp [downloadProduction, hA, fetchPart, hu, hf]
  · intro k seg url hk hsel hf
    have hsf := sceneFiles_abort fetch pkg.segments 0 k seg url hk hsel hf
    cases hA : fetchPart fetch pkg.audioUrl "narration.wav" <;>
      cases hT : fetchPart fetch pkg.thumbnailUrl "thumbnail.png" <;>
        simp [downloadProduction, hA, hT, hsf]
  · intro hau hth hsc
    obtain ⟨l, hl, hnames⟩ := sceneFiles_complete fetch pkg.segments 0 hsc
    cases hu : pkg.audioUrl with
    | none =>
        cases ht : pkg.thumbnailUrl with
        | none =>
            refine ⟨[] ++ [] ++ l ++
              [("production_metadata.json", metaContent),
               ("full_script.txt", scriptContent)], ?_, ?_⟩
            · simp [downloadProduction, fetchPart, hu, ht, hl]
            · simp [downloadEntryNames, hu, ht, hnames]
        | some turl =>
            obtain ⟨tb, htb⟩ := Option.isSome_iff_exists.mp (hth turl ht)
            refine ⟨[] ++ [("thumbnail.png", tb)] ++ l ++
              [("production_metadata.json", metaContent),
               ("full_script.txt", scriptContent)], ?_, ?_⟩
            · simp [downloadProduction, fetchPart, hu, ht, htb, hl]
            · simp [downloadEntryNames, hu, ht, hnames]
    | some aurl =>
        obtain ⟨ab, hab⟩ := Option.isSome_iff_exists.mp (hau aurl hu)
        cases ht : pkg.thumbnailUrl with
        | none =>
            refine ⟨[("narration.wav", ab)] ++ [] ++ l ++
              [("production_metadata.json", metaContent),
               ("full_script.txt", scriptContent)], ?_, ?_⟩
            · simp [downloadProduction, fetchPart, hu, ht, hab, hl]
            · simp [downloadEntryNames, hu, ht, hnames]
        | some turl =>
            obtain ⟨tb, htb⟩ := Option.isSome_iff_exists.mp (hth turl ht)
            refine ⟨[("narration.wav", ab)] ++ [("thumbnail.png", tb)] ++ l ++
              [("production_metadata.json", metaContent),
               ("full_script.txt", scriptContent)], ?_, ?_⟩
            · simp [downloadProduction, fetchPart, hu, ht, hab, htb, hl]
            · simp [downloadEntryNames, hu, ht, hnames]

theorem downloadProduction_abort_vs_degraded_witness :
    downloadProduction fetchNone "meta" "script" pkgTwo = none ∧
    ∃ l, downloadProduction fetchAll "meta" "script" pkgTwo = some l ∧
      l.map Prod.fst = downloadEntryNames pkgTwo :=
  ⟨(downloadProduction_abort_vs_degraded fetchNone "meta" "script" pkgTwo).1
      "audio-url" rfl rfl,
   (downloadProduction_abort_vs_degraded fetchAll "meta" "script" pkgTwo).2.2.2
      (fun _ _ => rfl) (fun _ _ => rfl) (fun _ _ _ _ _ => rfl)⟩
